/-
Verification of the immich_slideshow integration against its specification.

The development shallowly embeds the Python sources under
custom_components/immich_slideshow/:
  * coordinator.py  — the slideshow cursor state machine
    (ImmichDataUpdateCoordinator): current index, bounded history,
    live/history mode, and its four mutating operations;
  * camera.py       — async_camera_image (image cache and its eviction)
    and _resize_image (scale / crop-to-fit geometry);
  * immich_client.py — the HTTP client wrappers, with the network
    modelled as an explicit response oracle (Except for raise/return);
  * const.py        — the names defined by the module, needed to decide
    whether the `from .const import ...` statement in camera.py succeeds.

Machine integers do not occur (Python ints are unbounded); float
arithmetic in _resize_image is modelled over ℚ, which agrees with the
source on all inputs considered here.  Python `list[index]` raises on an
out-of-range index; the embedding uses `List.get?` and the invariant
proofs show the indices in question are in range in every reachable
state.
-/
import Mathlib

namespace ImmichSlideshow

/-- An Immich asset as the coordinator sees it: a dict whose `id` field is
read with `.get("id")`, hence possibly absent. -/
structure Asset where
  id : Option String
  deriving DecidableEq, Repr

/-- coordinator.py `_add_to_history`: drop entries with the same id,
insert at the front, truncate to 10 entries. -/
def addToHistory (hist : List Asset) (a : Asset) : List Asset :=
  let filtered := hist.filter (fun h => h.id ≠ a.id)
  let inserted := a :: filtered
  if inserted.length > 10 then inserted.take 10 else inserted

/-- The dict returned by `_async_update_data`.  The empty-assets branch
returns a dict without the last three keys; the embedding stores the
defaults that the `.get` reads elsewhere in the source supply
(`current_asset` → None, `history_index` → -1, `in_live_mode` → True). -/
structure CoordData where
  assets : List Asset
  currentIndex : Nat
  currentAsset : Option Asset
  historyIndex : Int
  inLiveMode : Bool
  deriving DecidableEq, Repr

/-- The mutable coordinator state: `self.image_history`,
`self.history_index` (-1 = live mode) and `self.data`
(None before the first refresh). -/
structure CoordState where
  imageHistory : List Asset
  historyIndex : Int
  data : Option CoordData
  deriving DecidableEq, Repr

/-- `__init__`: empty history, live mode, no data yet. -/
def initState : CoordState :=
  { imageHistory := [], historyIndex := -1, data := none }

/-- coordinator.py `_async_update_data`, given the asset list fetched by
`get_album_assets`; the host stores the returned dict into `self.data`,
so the whole refresh is a state transformer. -/
def asyncUpdateData (st : CoordState) (assets : List Asset) : CoordState :=
  if assets.isEmpty then
    { st with data := some { assets := [], currentIndex := 0, currentAsset := none,
                             historyIndex := -1, inLiveMode := true } }
  else
    let prevIndex : Nat :=
      match st.data with
      | some d => d.currentIndex
      | none => 0
    let advance : Bool := st.data.isSome && st.historyIndex == -1
    let idx1 : Nat := if advance then (prevIndex + 1) % assets.length else prevIndex
    let hist1 : List Asset :=
      if advance then
        match assets.get? idx1 with
        | some a => addToHistory st.imageHistory a
        | none => st.imageHistory
      else st.imageHistory
    let idx2 : Nat := if idx1 ≥ assets.length then 0 else idx1
    { imageHistory := hist1
    , historyIndex := st.historyIndex
    , data := some { assets := assets, currentIndex := idx2,
                     currentAsset := assets.get? idx2,
                     historyIndex := st.historyIndex,
                     inLiveMode := st.historyIndex == -1 } }

/-- coordinator.py `async_next_image`. -/
def asyncNextImage (st : CoordState) : CoordState :=
  match st.data with
  | none => st
  | some d =>
    if d.assets.isEmpty then st
    else if st.historyIndex == -1 then
      let ci := (d.currentIndex + 1) % d.assets.length
      let hist :=
        match d.assets.get? ci with
        | some a => addToHistory st.imageHistory a
        | none => st.imageHistory
      { imageHistory := hist,
        historyIndex := -1,
        data := some { d with
          currentIndex := ci, currentAsset := d.assets.get? ci,
          historyIndex := -1, inLiveMode := true } }
    else if st.historyIndex > 0 then
      let hi := st.historyIndex - 1
      { st with
        historyIndex := hi,
        data := some { d with
          currentAsset := st.imageHistory.get? hi.toNat,
          historyIndex := hi, inLiveMode := false } }
    else
      { st with
        historyIndex := -1,
        data := some { d with
          currentAsset := d.assets.get? d.currentIndex,
          historyIndex := -1, inLiveMode := true } }

/-- coordinator.py `async_previous_image`. -/
def asyncPreviousImage (st : CoordState) : CoordState :=
  match st.data with
  | none => st
  | some d =>
    if st.imageHistory.isEmpty then st
    else
      let hi : Int :=
        if st.historyIndex == -1 then 0
        else min (st.historyIndex + 1) ((st.imageHistory.length : Int) - 1)
      if hi < (st.imageHistory.length : Int) then
        { st with
          historyIndex := hi,
          data := some { d with
            currentAsset := st.imageHistory.get? hi.toNat,
            historyIndex := hi, inLiveMode := false } }
      else
        { st with historyIndex := hi }

/-- coordinator.py `next_image` (the sync variant): advances the index
and current asset but touches neither the history nor the mode flags. -/
def nextImage (st : CoordState) : CoordState :=
  match st.data with
  | none => st
  | some d =>
    if d.assets.isEmpty then st
    else
      let ci := (d.currentIndex + 1) % d.assets.length
      { st with
        data := some { d with
          currentIndex := ci, currentAsset := d.assets.get? ci } }

/-- States reachable from `__init__` by the operations of the coordinator,
with arbitrary fetch results on each refresh. -/
inductive Reachable : CoordState → Prop where
  | init : Reachable initState
  | update (st : CoordState) (assets : List Asset) :
      Reachable st → Reachable (asyncUpdateData st assets)
  | next (st : CoordState) : Reachable st → Reachable (asyncNextImage st)
  | prev (st : CoordState) : Reachable st → Reachable (asyncPreviousImage st)
  | syncNext (st : CoordState) : Reachable st → Reachable (nextImage st)

/-- The coordinator invariant: when not in live mode the history index is
a valid history position; the history is bounded by 10 and its ids are
pairwise distinct. -/
def CoordInv (st : CoordState) : Prop :=
  (st.historyIndex = -1 ∨
    (0 ≤ st.historyIndex ∧ st.historyIndex < (st.imageHistory.length : Int)))
  ∧ st.imageHistory.length ≤ 10
  ∧ (st.imageHistory.map Asset.id).Nodup

/-- A failed HTTP request (requests.RequestException); the string stands
for the message of the exception. -/
abbrev ReqError := String

/-- immich_client.py test_connection: a request failure is logged and
then re-raised (`raise` in the except block), so the error propagates to
the caller; success returns True. -/
def testConnection (resp : Except ReqError Unit) : Except ReqError Bool :=
  match resp with
  | .ok _ => .ok true
  | .error e => .error e

/-- immich_client.py get_albums: returns the JSON list on success and []
on a request failure.  The album payload type is opaque to the client. -/
def getAlbums (X : Type) (resp : Except ReqError (List X)) : List X :=
  match resp with
  | .ok v => v
  | .error _ => []

/-- The JSON body of a successful /api/albums/{id} response; the code
reads it with `.get("assets", [])`, so the key may be absent. -/
structure AlbumJson where
  assets : Option (List Asset)

/-- Python truthiness of an optional string (`if album_id:`): None and
the empty string are falsy. -/
def pyTruthyStr (o : Option String) : Bool :=
  match o with
  | none => false
  | some s => decide (s ≠ "")

/-- immich_client.py get_album_assets: with a truthy album id it fetches
the album and returns its "assets" list (default []); otherwise it lists
assets directly.  A failure of either request yields []. -/
def getAlbumAssets (albumId : Option String)
    (albumResp : Except ReqError AlbumJson)
    (assetsResp : Except ReqError (List Asset)) : List Asset :=
  if pyTruthyStr albumId then
    match albumResp with
    | .ok j => j.assets.getD []
    | .error _ => []
  else
    match assetsResp with
    | .ok v => v
    | .error _ => []

/-- Outcome of coordinator.py _async_update_data including its except
clause: an exception from the fetch job is re-raised as UpdateFailed. -/
inductive UpdateOutcome where
  | ok (st : CoordState)
  | updateFailed (msg : String)
  deriving Repr

/-- coordinator.py _async_update_data with the outcome of the executor job
made explicit: on an exception the coordinator raises UpdateFailed to
the host rather than returning data. -/
def asyncUpdateDataTop (st : CoordState) (job : Except ReqError (List Asset)) :
    UpdateOutcome :=
  match job with
  | .ok assets => .ok (asyncUpdateData st assets)
  | .error e => .updateFailed e

/-- Image bytes. -/
abbrev Bytes := List Nat

/-- The camera image cache key: (current asset id, width, height). -/
abbrev CacheKey := Option String × Option Nat × Option Nat

/-- Result of a Python coroutine: a normal return or a propagating
exception (named by its class). -/
inductive PyOutcome where
  | ret (b : Option Bytes)
  | exn (e : String)
  deriving DecidableEq, Repr

/-- Module-level names that const.py defines. -/
def constDefinedNames : List String :=
  ["DOMAIN", "PLATFORMS", "CONF_SERVER_URL", "CONF_API_KEY", "CONF_ALBUM_ID",
   "CONF_UPDATE_INTERVAL", "CONF_USE_THUMBNAILS", "DEFAULT_UPDATE_INTERVAL",
   "DEFAULT_NAME", "DEFAULT_USE_THUMBNAILS", "CONF_SERVER_URL_LABEL",
   "CONF_API_KEY_LABEL", "CONF_ALBUM_ID_LABEL", "CONF_UPDATE_INTERVAL_LABEL"]

/-- The names that the `from .const import (...)` statement in
async_camera_image requires. -/
def cameraImportNames : List String :=
  ["CONF_USE_THUMBNAILS", "DEFAULT_USE_THUMBNAILS", "CONF_RESPECT_CARD_SIZE",
   "DEFAULT_RESPECT_CARD_SIZE", "CONF_CROP_TO_FIT", "DEFAULT_CROP_TO_FIT"]

/-- Whether that import statement succeeds: every requested name must be
defined by const.py. -/
def cameraImportSucceeds : Bool :=
  cameraImportNames.all (fun n => constDefinedNames.contains n)

/-- Python truthiness of an optional int (`if width or height:`): None
and 0 are falsy. -/
def pyTruthyNat (o : Option Nat) : Bool :=
  match o with
  | none => false
  | some n => decide (n ≠ 0)

/-- The option values of the camera entry and the outcomes of the external
effects async_camera_image delegates: the HTTP fetch of the image and
the executor-run _resize_image (total, since _resize_image catches its
own exceptions and falls back to the original bytes). -/
structure CameraEnv where
  useThumbnails : Bool
  respectCardSize : Bool
  cropToFit : Bool
  fetch : Except ReqError Bytes
  resized : Bytes → Bytes

/-- camera.py lines 117-124: insert into the insertion-ordered cache
(the key is known not to be present: hits return earlier), then if the
size exceeds 10 delete the oldest keys, keeping the last 10. -/
def cacheInsert (cache : List (CacheKey × Bytes)) (k : CacheKey) (v : Bytes) :
    List (CacheKey × Bytes) :=
  let c := cache ++ [(k, v)]
  if c.length > 10 then c.drop (c.length - 10) else c

/-- camera.py async_camera_image.  The cache is an insertion-ordered
association list (oldest first), mirroring a Python dict.  On a cache
miss the `from .const import` statement raises (see
cameraImportSucceeds), and the except handler evaluates the local
image_url — which is only assigned later in the try block — so the
handler itself raises UnboundLocalError.  The code after the import is
kept faithfully even though that makes it unreachable. -/
def asyncCameraImage (cache : List (CacheKey × Bytes)) (dataPresent : Bool)
    (currentAsset : Option Asset) (w l : Option Nat) (env : CameraEnv) :
    PyOutcome × List (CacheKey × Bytes) :=
  if !dataPresent then (.ret none, cache)
  else
    match currentAsset with
    | none => (.ret none, cache)
    | some a =>
      let key : CacheKey := (a.id, w, l)
      match cache.lookup key with
      | some b => (.ret (some b), cache)
      | none =>
        if !cameraImportSucceeds then (.exn "UnboundLocalError", cache)
        else
          match env.fetch with
          | .error _ => (.ret none, cache)
          | .ok content =>
            let imageData :=
              if env.respectCardSize && (pyTruthyNat w || pyTruthyNat l) then
                env.resized content
              else content
            (.ret (some imageData), cacheInsert cache key imageData)

/-- The geometric outcome of camera.py _resize_image on a successfully
decoded image: the original bytes returned unchanged, an
aspect-preserving resize to w x h, or a scale-to-tempW x tempH followed
by the crop box (l, t, r, b); PIL crop returns an image of exactly
(r - l) x (b - t) pixels.  Python float arithmetic is modelled over ℚ,
and the Python int() on these non-negative values is Int.floor. -/
inductive ResizeOutcome where
  | original
  | resized (w h : Int)
  | cropped (tempW tempH l t r b : Int)
  deriving DecidableEq, Repr

/-- camera.py lines 152-157: for a vertical image with only a width, a
height of int(width * 0.75) is inferred; otherwise the given height is
kept. -/
def resizeEffHeight (ow oh : Nat) (width height : Option Nat) : Option Nat :=
  if pyTruthyNat width && !(pyTruthyNat height) && decide ((ow : ℚ) / (oh : ℚ) < 1) then
    some ((3 * width.getD 0) / 4)
  else height

/-- camera.py lines 160-166: per-dimension scale factors (float inf
for a falsy dimension) and their minimum.  At least one dimension is
truthy when this is reached, so the infinite cases never both occur. -/
def resizeScale (ow oh : Nat) (width height : Option Nat) : ℚ :=
  let h2 := resizeEffHeight ow oh width height
  if pyTruthyNat width && pyTruthyNat h2 then
    min ((width.getD 0 : ℚ) / (ow : ℚ)) ((h2.getD 0 : ℚ) / (oh : ℚ))
  else if pyTruthyNat width then (width.getD 0 : ℚ) / (ow : ℚ)
  else ((h2.getD 0 : ℚ) / (oh : ℚ))

/-- camera.py lines 171-172: the scale is capped at 2.0. -/
def resizeScaleCapped (ow oh : Nat) (width height : Option Nat) : ℚ :=
  let s := resizeScale ow oh width height
  if 2 < s then 2 else s

/-- camera.py lines 175-182: the aspect-fit dimensions
int(original * scale), bumped to at least 10 x 10 when either falls
below 10. -/
def resizeNewDims (ow oh : Nat) (width height : Option Nat) : Int × Int :=
  let s := resizeScaleCapped ow oh width height
  let nw := Int.floor ((ow : ℚ) * s)
  let nh := Int.floor ((oh : ℚ) * s)
  if nw < 10 ∨ nh < 10 then (max nw 10, max nh 10) else (nw, nh)

/-- camera.py _resize_image (lines 134-250), reduced to the geometry of
its result.  Order of checks follows the source: no dimensions given →
original; aspect-fit size within 10 pixels of the original in both
dimensions → original (even in crop-to-fit mode); crop_to_fit with both
dimensions → scale to fill then center-crop; otherwise aspect-fit
resize. -/
def resizeImage (ow oh : Nat) (width height : Option Nat) (cropToFit : Bool) :
    ResizeOutcome :=
  if !(pyTruthyNat width) && !(pyTruthyNat height) then .original
  else
    let height2 := resizeEffHeight ow oh width height
    let nd := resizeNewDims ow oh width height
    if |nd.1 - (ow : Int)| < 10 ∧ |nd.2 - (oh : Int)| < 10 then .original
    else if cropToFit && pyTruthyNat width && pyTruthyNat height2 then
      let w : Int := (width.getD 0 : Nat)
      let h : Int := (height2.getD 0 : Nat)
      let targetAspect : ℚ := (w : ℚ) / (h : ℚ)
      let sourceAspect : ℚ := (ow : ℚ) / (oh : ℚ)
      let temp : Int × Int :=
        if targetAspect < sourceAspect then
          (Int.floor ((ow : ℚ) * ((h : ℚ) / (oh : ℚ))), h)
        else
          (w, Int.floor ((oh : ℚ) * ((w : ℚ) / (ow : ℚ))))
      let lft : Int := (temp.1 - w).fdiv 2
      let tp : Int := (temp.2 - h).fdiv 2
      .cropped temp.1 temp.2 lft tp (lft + w) (tp + h)
    else .resized nd.1 nd.2

/-- The pixel dimensions of the image _resize_image returns. -/
def outcomeSize (ow oh : Nat) : ResizeOutcome → Int × Int
  | .original => ((ow : Int), (oh : Int))
  | .resized w h => (w, h)
  | .cropped _ _ l t r b => (r - l, b - t)

theorem addToHistory_eq (hist : List Asset) (a : Asset) :
    addToHistory hist a = (a :: hist.filter (fun h => h.id ≠ a.id)).take 10 := by
  simp only [addToHistory]
  split
  · rfl
  · next h =>
    exact (List.take_of_length_le (by simp at h ⊢; omega)).symm

theorem addToHistory_length_le (hist : List Asset) (a : Asset) :
    (addToHistory hist a).length ≤ 10 := by
  simp only [addToHistory]
  split
  · next h => simp [List.length_take]
  · next h => omega

theorem addToHistory_head (hist : List Asset) (a : Asset) :
    (addToHistory hist a).head? = some a := by
  rw [addToHistory_eq]
  rfl

theorem addToHistory_nodup (hist : List Asset) (a : Asset)
    (h : (hist.map Asset.id).Nodup) :
    ((addToHistory hist a).map Asset.id).Nodup := by
  rw [addToHistory_eq]
  have hsub : List.Sublist
      (((a :: hist.filter (fun h => h.id ≠ a.id)).take 10).map Asset.id)
      ((a :: hist.filter (fun h => h.id ≠ a.id)).map Asset.id) :=
    List.Sublist.map _ (List.take_sublist _ _)
  refine List.Nodup.sublist hsub ?_
  simp only [List.map_cons, List.nodup_cons]
  constructor
  · intro hmem
    rcases List.mem_map.mp hmem with ⟨b, hb, hid⟩
    have := List.of_mem_filter hb
    simp only [decide_eq_true_eq] at this
    exact this hid
  · exact h.sublist (List.Sublist.map _ (List.filter_sublist _))

theorem coordInv_init : CoordInv initState := by
  refine ⟨Or.inl rfl, ?_, ?_⟩ <;> simp [initState]

theorem asyncUpdateData_historyIndex (st : CoordState) (assets : List Asset) :
    (asyncUpdateData st assets).historyIndex = st.historyIndex := by
  simp only [asyncUpdateData]
  split <;> rfl

theorem asyncUpdateData_imageHistory (st : CoordState) (assets : List Asset) :
    (asyncUpdateData st assets).imageHistory = st.imageHistory ∨
      (st.historyIndex = -1 ∧
        ∃ a, (asyncUpdateData st assets).imageHistory = addToHistory st.imageHistory a) := by
  simp only [asyncUpdateData]
  split
  · exact Or.inl rfl
  · dsimp only
    split
    · next hadv =>
      have hm : st.historyIndex = -1 := by
        simp only [Bool.and_eq_true, beq_iff_eq] at hadv
        exact hadv.2
      split
      · next a ha => exact Or.inr ⟨hm, a, rfl⟩
      · exact Or.inl rfl
    · exact Or.inl rfl

theorem asyncNextImage_cases (st : CoordState) :
    ((asyncNextImage st).imageHistory = st.imageHistory ∧
      (asyncNextImage st).historyIndex = st.historyIndex)
    ∨ ((asyncNextImage st).historyIndex = -1 ∧
        ((asyncNextImage st).imageHistory = st.imageHistory ∨
          ∃ a, (asyncNextImage st).imageHistory = addToHistory st.imageHistory a))
    ∨ (0 < st.historyIndex ∧
        (asyncNextImage st).historyIndex = st.historyIndex - 1 ∧
        (asyncNextImage st).imageHistory = st.imageHistory) := by
  simp only [asyncNextImage]
  split
  · exact Or.inl ⟨rfl, rfl⟩
  · split
    · exact Or.inl ⟨rfl, rfl⟩
    · split
      · refine Or.inr (Or.inl ⟨rfl, ?_⟩)
        dsimp only
        split
        · next a ha => exact Or.inr ⟨a, rfl⟩
        · exact Or.inl rfl
      · split
        · next hpos => exact Or.inr (Or.inr ⟨by simpa using hpos, rfl, rfl⟩)
        · exact Or.inr (Or.inl ⟨rfl, Or.inl rfl⟩)

theorem asyncPreviousImage_cases (st : CoordState) :
    (asyncPreviousImage st).imageHistory = st.imageHistory ∧
      ((asyncPreviousImage st).historyIndex = st.historyIndex ∨
        (st.imageHistory ≠ [] ∧
          (asyncPreviousImage st).historyIndex =
            (if st.historyIndex = -1 then 0
              else min (st.historyIndex + 1) ((st.imageHistory.length : Int) - 1)))) := by
  refine ⟨?_, ?_⟩ <;> simp only [asyncPreviousImage]
  · split
    · rfl
    · split
      · rfl
      · split <;> split <;> rfl
  · split
    · exact Or.inl rfl
    · split
      · exact Or.inl rfl
      · next hne =>
        have hne2 : st.imageHistory ≠ [] := by
          intro hnil
          simp [hnil] at hne
        refine Or.inr ⟨hne2, ?_⟩
        split
        · next hcase =>
          have hm : st.historyIndex = -1 := by simpa using hcase
          rw [if_pos hm]
          split <;> rfl
        · next hcase =>
          have hm : ¬st.historyIndex = -1 := by simpa using hcase
          rw [if_neg hm]
          split <;> rfl

theorem nextImage_unchanged (st : CoordState) :
    (nextImage st).imageHistory = st.imageHistory ∧
      (nextImage st).historyIndex = st.historyIndex := by
  simp only [nextImage]
  split
  · exact ⟨rfl, rfl⟩
  · split <;> exact ⟨rfl, rfl⟩

theorem coordInv_update (st : CoordState) (assets : List Asset)
    (h : CoordInv st) : CoordInv (asyncUpdateData st assets) := by
  obtain ⟨hidx, hlen, hnd⟩ := h
  have hh := asyncUpdateData_historyIndex st assets
  rcases asyncUpdateData_imageHistory st assets with he | ⟨hm, a, he⟩
  · exact ⟨by rw [hh, he]; exact hidx, by rw [he]; exact hlen, by rw [he]; exact hnd⟩
  · exact ⟨Or.inl (by rw [hh]; exact hm),
      by rw [he]; exact addToHistory_length_le _ _,
      by rw [he]; exact addToHistory_nodup _ _ hnd⟩

theorem coordInv_next (st : CoordState) (h : CoordInv st) :
    CoordInv (asyncNextImage st) := by
  obtain ⟨hidx, hlen, hnd⟩ := h
  rcases asyncNextImage_cases st with ⟨he, hh⟩ | ⟨hh, he⟩ | ⟨hpos, hh, he⟩
  · exact ⟨by rw [hh, he]; exact hidx, by rw [he]; exact hlen, by rw [he]; exact hnd⟩
  · rcases he with he | ⟨a, he⟩
    · exact ⟨Or.inl hh, by rw [he]; exact hlen, by rw [he]; exact hnd⟩
    · exact ⟨Or.inl hh, by rw [he]; exact addToHistory_length_le _ _,
        by rw [he]; exact addToHistory_nodup _ _ hnd⟩
  · refine ⟨?_, by rw [he]; exact hlen, by rw [he]; exact hnd⟩
    rcases hidx with heq | hlt
    · omega
    · refine Or.inr ⟨by omega, ?_⟩
      rw [hh, he]
      omega

theorem coordInv_prev (st : CoordState) (h : CoordInv st) :
    CoordInv (asyncPreviousImage st) := by
  obtain ⟨hidx, hlen, hnd⟩ := h
  obtain ⟨he, hh⟩ := asyncPreviousImage_cases st
  rcases hh with hh | ⟨hne, hh⟩
  · exact ⟨by rw [hh, he]; exact hidx, by rw [he]; exact hlen, by rw [he]; exact hnd⟩
  · refine ⟨?_, by rw [he]; exact hlen, by rw [he]; exact hnd⟩
    have hlen1 : 1 ≤ st.imageHistory.length := by
      cases hcase : st.imageHistory with
      | nil => exact absurd hcase hne
      | cons b l => simp [hcase]
    refine Or.inr ?_
    rw [hh, he]
    split
    · constructor <;> omega
    · next hmode =>
      rcases hidx with heq | hlt
      · exact absurd heq hmode
      · have h1 : (0 : Int) ≤ min (st.historyIndex + 1)
            ((st.imageHistory.length : Int) - 1) := le_min (by omega) (by omega)
        have h2 : min (st.historyIndex + 1) ((st.imageHistory.length : Int) - 1)
            ≤ (st.imageHistory.length : Int) - 1 := min_le_right _ _
        constructor <;> omega

theorem coordInv_syncNext (st : CoordState) (h : CoordInv st) :
    CoordInv (nextImage st) := by
  obtain ⟨hidx, hlen, hnd⟩ := h
  obtain ⟨he, hh⟩ := nextImage_unchanged st
  exact ⟨by rw [hh, he]; exact hidx, by rw [he]; exact hlen, by rw [he]; exact hnd⟩

theorem reachable_inv (st : CoordState) (h : Reachable st) : CoordInv st := by
  induction h with
  | init => exact coordInv_init
  | update st assets _ ih => exact coordInv_update st assets ih
  | next st _ ih => exact coordInv_next st ih
  | prev st _ ih => exact coordInv_prev st ih
  | syncNext st _ ih => exact coordInv_syncNext st ih

/-- C1: on a refresh with non-empty assets and existing prior data, live
mode advances the index to (previous + 1) mod len(assets) and puts the
newly current asset at the front of the history; history mode leaves the
current index unchanged (given it is in range for the new asset list). -/
theorem C1_refresh_advance (st : CoordState) (assets : List Asset) (d : CoordData)
    (hd : st.data = some d) (hne : assets ≠ []) :
    (st.historyIndex = -1 →
      ∃ d2, (asyncUpdateData st assets).data = some d2 ∧
        d2.currentIndex = (d.currentIndex + 1) % assets.length ∧
        d2.currentAsset = assets.get? d2.currentIndex ∧
        (assets.get? d2.currentIndex).isSome = true ∧
        (asyncUpdateData st assets).imageHistory.head? = assets.get? d2.currentIndex)
    ∧ (st.historyIndex ≠ -1 → d.currentIndex < assets.length →
      ∃ d2, (asyncUpdateData st assets).data = some d2 ∧
        d2.currentIndex = d.currentIndex) := by
  have hlen : 0 < assets.length := List.length_pos.mpr hne
  constructor
  · intro hm
    have hlt : (d.currentIndex + 1) % assets.length < assets.length :=
      Nat.mod_lt _ hlen
    have h2 : ¬(assets.length ≤ (d.currentIndex + 1) % assets.length) := by omega
    obtain ⟨a, ha⟩ : ∃ a, assets.get? ((d.currentIndex + 1) % assets.length) = some a := by
      rw [List.get?_eq_getElem?]
      exact ⟨_, List.getElem?_eq_getElem hlt⟩
    have hres : (asyncUpdateData st assets).data =
        some ⟨assets, (d.currentIndex + 1) % assets.length,
          assets.get? ((d.currentIndex + 1) % assets.length), -1, true⟩ := by
      simp [asyncUpdateData, hne, hd, hm, h2]
    have hhist : (asyncUpdateData st assets).imageHistory.head? = some a := by
      have ha2 := ha
      rw [List.get?_eq_getElem?] at ha2
      simp [asyncUpdateData, hne, hd, hm, h2, ha2, addToHistory_head]
    refine ⟨_, hres, rfl, rfl, ?_, ?_⟩
    · rw [ha]
      rfl
    · rw [hhist, ha]
  · intro hm hidx
    have h2 : ¬(assets.length ≤ d.currentIndex) := by omega
    have hres : (asyncUpdateData st assets).data =
        some ⟨assets, d.currentIndex, assets.get? d.currentIndex,
          st.historyIndex, st.historyIndex == -1⟩ := by
      simp [asyncUpdateData, hne, hd, hm, h2]
    exact ⟨_, hres, rfl⟩

/-- C1 witness: a concrete live-mode refresh over two assets advances
the index from 0 to 1 and the head of the history is the new current asset. -/
theorem C1_refresh_advance_witness :
    (asyncUpdateData ⟨[], -1, some ⟨[⟨some "p"⟩], 0, none, -1, true⟩⟩
        [⟨some "x"⟩, ⟨some "y"⟩]).data.map CoordData.currentIndex = some 1 ∧
    (asyncUpdateData ⟨[], -1, some ⟨[⟨some "p"⟩], 0, none, -1, true⟩⟩
        [⟨some "x"⟩, ⟨some "y"⟩]).imageHistory.head? = some ⟨some "y"⟩ := by
  obtain ⟨d2, hres, hci, hca, hs, hh⟩ :=
    (C1_refresh_advance ⟨[], -1, some ⟨[⟨some "p"⟩], 0, none, -1, true⟩⟩
      [⟨some "x"⟩, ⟨some "y"⟩] ⟨[⟨some "p"⟩], 0, none, -1, true⟩ rfl (by decide)).1 rfl
  rw [hci] at hh
  constructor
  · simp [hres, hci]
  · rw [hh]
    rfl

/-- C2: in every reachable coordinator state, whenever the cursor is not
in live mode the history index is a valid position in the history. -/
theorem C2_history_index_valid (st : CoordState) (h : Reachable st)
    (hmode : st.historyIndex ≠ -1) :
    0 ≤ st.historyIndex ∧ st.historyIndex < (st.imageHistory.length : Int) := by
  rcases (reachable_inv st h).1 with heq | hlt
  · exact absurd heq hmode
  · exact hlt

/-- C2 witness: after two refreshes and one previous-image call the
cursor is in history mode at a valid position. -/
theorem C2_history_index_valid_witness :
    0 ≤ (asyncPreviousImage
        (asyncUpdateData (asyncUpdateData initState [⟨some "x"⟩]) [⟨some "x"⟩])).historyIndex
    ∧ (asyncPreviousImage
        (asyncUpdateData (asyncUpdateData initState [⟨some "x"⟩]) [⟨some "x"⟩])).historyIndex
      < ((asyncPreviousImage
        (asyncUpdateData (asyncUpdateData initState [⟨some "x"⟩]) [⟨some "x"⟩])).imageHistory.length : Int) :=
  C2_history_index_valid _
    (Reachable.prev _ (Reachable.update _ _ (Reachable.update _ _ Reachable.init)))
    (by decide)

/-- C3: _add_to_history always leaves at most 10 entries, and the result
is exactly the new asset followed by the previous history (minus any
entry with the same id) truncated to 10, i.e. most recent first; hence
every reachable state has a history of at most 10 entries. -/
theorem C3_history_bounded :
    (∀ (hist : List Asset) (a : Asset),
      (addToHistory hist a).length ≤ 10 ∧
        addToHistory hist a = (a :: hist.filter (fun h => h.id ≠ a.id)).take 10)
    ∧ ∀ st : CoordState, Reachable st → st.imageHistory.length ≤ 10 :=
  ⟨fun hist a => ⟨addToHistory_length_le hist a, addToHistory_eq hist a⟩,
    fun st h => (reachable_inv st h).2.1⟩

/-- C3 witness: the bound evaluated on a concrete call and on the initial
state. -/
theorem C3_history_bounded_witness :
    (addToHistory [] ⟨some "x"⟩).length ≤ 10 ∧ initState.imageHistory.length ≤ 10 :=
  ⟨(C3_history_bounded.1 [] ⟨some "x"⟩).1, C3_history_bounded.2 initState Reachable.init⟩

/-- C4: async_next_image in history mode with non-empty assets steps the
cursor one position forward in history (history_index decreases by one,
current_asset taken from the history) when history_index > 0, and
returns to live mode (history_index -1, current_asset from the asset
list at the current index) when history_index = 0. -/
theorem C4_next_image_history_mode (st : CoordState) (d : CoordData)
    (hd : st.data = some d) (hne : d.assets ≠ []) (hmode : st.historyIndex ≠ -1) :
    (0 < st.historyIndex →
      (asyncNextImage st).historyIndex = st.historyIndex - 1 ∧
      ∃ d2, (asyncNextImage st).data = some d2 ∧
        d2.currentAsset = st.imageHistory.get? (st.historyIndex - 1).toNat)
    ∧ (st.historyIndex = 0 →
      (asyncNextImage st).historyIndex = -1 ∧
      ∃ d2, (asyncNextImage st).data = some d2 ∧
        d2.currentAsset = d.assets.get? d.currentIndex) := by
  constructor
  · intro hpos
    have hres : (asyncNextImage st).data =
        some { d with
          currentAsset := st.imageHistory.get? (st.historyIndex - 1).toNat,
          historyIndex := st.historyIndex - 1, inLiveMode := false } := by
      simp [asyncNextImage, hd, hne, hmode, hpos]
    refine ⟨?_, _, hres, rfl⟩
    simp [asyncNextImage, hd, hne, hmode, hpos]
  · intro hz
    have hnpos : ¬(0 < st.historyIndex) := by omega
    have hres : (asyncNextImage st).data =
        some { d with
          currentAsset := d.assets.get? d.currentIndex,
          historyIndex := -1, inLiveMode := true } := by
      simp [asyncNextImage, hd, hne, hmode, hnpos]
    refine ⟨?_, _, hres, rfl⟩
    simp [asyncNextImage, hd, hne, hmode, hnpos]

/-- C4 witness: from history position 1 over a two-entry history,
async_next_image moves to position 0 and shows that history entry. -/
theorem C4_next_image_history_mode_witness :
    (asyncNextImage ⟨[⟨some "a"⟩, ⟨some "b"⟩], 1,
        some ⟨[⟨some "x"⟩], 0, none, 1, false⟩⟩).historyIndex = 0 ∧
    (asyncNextImage ⟨[⟨some "a"⟩, ⟨some "b"⟩], 1,
        some ⟨[⟨some "x"⟩], 0, none, 1, false⟩⟩).data.map CoordData.currentAsset
      = some (some ⟨some "a"⟩) := by
  obtain ⟨h1, d2, hres, hca⟩ :=
    (C4_next_image_history_mode
      ⟨[⟨some "a"⟩, ⟨some "b"⟩], 1, some ⟨[⟨some "x"⟩], 0, none, 1, false⟩⟩
      ⟨[⟨some "x"⟩], 0, none, 1, false⟩ rfl (by decide) (by decide)).1 (by decide)
  constructor
  · exact h1
  · rw [hres]
    simp [hca]

/-- C8: every refresh with a non-empty asset list returns a data dict
whose current index is in bounds, so reading assets[current_index]
cannot fail, whatever index the previous data held. -/
theorem C8_current_index_in_bounds (st : CoordState) (assets : List Asset)
    (hne : assets ≠ []) :
    ∃ d2, (asyncUpdateData st assets).data = some d2 ∧
      d2.currentIndex < assets.length ∧
      d2.currentAsset = assets.get? d2.currentIndex ∧
      (assets.get? d2.currentIndex).isSome = true := by
  have hlen : 0 < assets.length := List.length_pos.mpr hne
  have hsome : ∀ i, i < assets.length → (assets.get? i).isSome = true := by
    intro i hi
    rw [List.get?_eq_getElem?, List.getElem?_eq_getElem hi]
    rfl
  cases hd : st.data with
  | none =>
    have h0 : ¬(assets.length ≤ 0) := by omega
    have hres : (asyncUpdateData st assets).data =
        some ⟨assets, 0, assets.get? 0, st.historyIndex, st.historyIndex == -1⟩ := by
      simp [asyncUpdateData, hne, hd, h0]
    exact ⟨_, hres, hlen, rfl, hsome 0 hlen⟩
  | some d =>
    by_cases hm : st.historyIndex = -1
    · have hlt : (d.currentIndex + 1) % assets.length < assets.length :=
        Nat.mod_lt _ hlen
      have h2 : ¬(assets.length ≤ (d.currentIndex + 1) % assets.length) := by omega
      have hres : (asyncUpdateData st assets).data =
          some ⟨assets, (d.currentIndex + 1) % assets.length,
            assets.get? ((d.currentIndex + 1) % assets.length), -1, true⟩ := by
        simp [asyncUpdateData, hne, hd, hm, h2]
      exact ⟨_, hres, hlt, rfl, hsome _ hlt⟩
    · by_cases hge : assets.length ≤ d.currentIndex
      · have hres : (asyncUpdateData st assets).data =
            some ⟨assets, 0, assets.get? 0, st.historyIndex, st.historyIndex == -1⟩ := by
          simp [asyncUpdateData, hne, hd, hm, hge]
        exact ⟨_, hres, hlen, rfl, hsome 0 hlen⟩
      · have hres : (asyncUpdateData st assets).data =
            some ⟨assets, d.currentIndex, assets.get? d.currentIndex,
              st.historyIndex, st.historyIndex == -1⟩ := by
          simp [asyncUpdateData, hne, hd, hm, hge]
        have hidx : d.currentIndex < assets.length := by omega
        exact ⟨_, hres, hidx, rfl, hsome _ hidx⟩

/-- C8 witness: a refresh from a state holding the stale index 7, with a
new one-element asset list, yields an in-bounds index and a present
current asset. -/
theorem C8_current_index_in_bounds_witness :
    (asyncUpdateData ⟨[], 5, some ⟨[], 7, none, 5, false⟩⟩ [⟨some "x"⟩]).data.map
        (fun d2 => decide (d2.currentIndex < 1)) = some true ∧
    (asyncUpdateData ⟨[], 5, some ⟨[], 7, none, 5, false⟩⟩ [⟨some "x"⟩]).data.map
        (fun d2 => ([Asset.mk (some "x")].get? d2.currentIndex).isSome) = some true := by
  obtain ⟨d2, hres, hlt, hca, hs⟩ :=
    C8_current_index_in_bounds ⟨[], 5, some ⟨[], 7, none, 5, false⟩⟩
      [⟨some "x"⟩] (by decide)
  rw [hres]
  constructor
  · simp only [List.length_cons, List.length_nil] at hlt
    simp [Nat.lt_one_iff.mp hlt]
  · simpa using hs

/-- C10: _add_to_history keeps the history duplicate-free by id and puts
the new asset first; hence every reachable state has a duplicate-free
history. -/
theorem C10_history_nodup :
    (∀ (hist : List Asset) (a : Asset), (hist.map Asset.id).Nodup →
      ((addToHistory hist a).map Asset.id).Nodup ∧
        (addToHistory hist a).head? = some a)
    ∧ ∀ st : CoordState, Reachable st → (st.imageHistory.map Asset.id).Nodup :=
  ⟨fun hist a h => ⟨addToHistory_nodup hist a h, addToHistory_head hist a⟩,
    fun st h => (reachable_inv st h).2.2⟩

/-- C10 witness: adding an asset already present in a concrete two-entry
history keeps it duplicate-free with the new asset first. -/
theorem C10_history_nodup_witness :
    ((addToHistory [⟨some "a"⟩, ⟨some "b"⟩] ⟨some "b"⟩).map Asset.id).Nodup ∧
      (addToHistory [⟨some "a"⟩, ⟨some "b"⟩] ⟨some "b"⟩).head? = some ⟨some "b"⟩ :=
  C10_history_nodup.1 [⟨some "a"⟩, ⟨some "b"⟩] ⟨some "b"⟩ (by decide)

theorem cameraImportSucceeds_eq_false : cameraImportSucceeds = false := rfl

/-- C5 counterexample: on a concrete cache miss async_camera_image does
not return None; the call raises UnboundLocalError, because the failing
const.py import lands in an except handler that reads the still-unbound
local image_url. -/
theorem C5_counterexample :
    (asyncCameraImage [] true (some ⟨some "a"⟩) (some 800) (some 600)
        ⟨true, true, true, Except.ok [1], fun b => b⟩).1
      = PyOutcome.exn "UnboundLocalError" ∧
    (asyncCameraImage [] true (some ⟨some "a"⟩) (some 800) (some 600)
        ⟨true, true, true, Except.ok [1], fun b => b⟩).1
      ≠ PyOutcome.ret none := by
  constructor
  · rfl
  · intro h
    exact PyOutcome.noConfusion (h.symm.trans rfl)

/-- C5 (amended): every async_camera_image call whose cache key misses
raises UnboundLocalError — the import of names missing from const.py
fails inside the try block and the except handler evaluates the unbound
local image_url — and no call ever modifies the cache, so the camera
never serves a freshly fetched image and the cache is never populated. -/
theorem C5_import_failure (cache : List (CacheKey × Bytes)) (a : Asset)
    (w l : Option Nat) (env : CameraEnv)
    (hmiss : cache.lookup (a.id, w, l) = none) :
    asyncCameraImage cache true (some a) w l env
      = (PyOutcome.exn "UnboundLocalError", cache)
    ∧ ∀ (dp : Bool) (ca : Option Asset) (w2 l2 : Option Nat) (env2 : CameraEnv),
        (asyncCameraImage cache dp ca w2 l2 env2).2 = cache := by
  constructor
  · simp only [asyncCameraImage]
    rw [hmiss]
    rfl
  · intro dp ca w2 l2 env2
    cases dp with
    | false => rfl
    | true =>
      cases ca with
      | none => rfl
      | some b =>
        cases hl : cache.lookup (b.id, w2, l2) with
        | some v => simp [asyncCameraImage, hl]
        | none => simp [asyncCameraImage, hl, cameraImportSucceeds_eq_false]

/-- C5 witness: the amended statement evaluated at a concrete empty
cache. -/
theorem C5_import_failure_witness :
    asyncCameraImage [] true (some ⟨some "a"⟩) (some 800) (some 600)
        ⟨true, true, true, Except.ok [1], fun b => b⟩
      = (PyOutcome.exn "UnboundLocalError", []) ∧
    (asyncCameraImage [] false none none none
        ⟨true, true, true, Except.ok [1], fun b => b⟩).2 = [] :=
  ⟨(C5_import_failure [] ⟨some "a"⟩ (some 800) (some 600)
      ⟨true, true, true, Except.ok [1], fun b => b⟩ rfl).1,
   (C5_import_failure [] ⟨some "a"⟩ (some 800) (some 600)
      ⟨true, true, true, Except.ok [1], fun b => b⟩ rfl).2 false none none none
      ⟨true, true, true, Except.ok [1], fun b => b⟩⟩

/-- C6 counterexample: a request failure in test_connection is re-raised
to the caller instead of being turned into an empty value or None. -/
theorem C6_counterexample :
    testConnection (Except.error "connection refused")
      = Except.error "connection refused" ∧
    ∀ r : Bool, testConnection (Except.error "connection refused") ≠ Except.ok r :=
  ⟨rfl, fun _ h => Except.noConfusion h⟩

/-- C6 (amended): get_albums and get_album_assets indeed return [] on a
request failure, but two raising failure paths exist as well:
test_connection re-raises the request error, and
_async_update_data wraps any fetch exception in UpdateFailed and raises
it to the host. -/
theorem C6_failure_semantics :
    (∀ (X : Type) (e : ReqError), getAlbums X (Except.error e) = [])
    ∧ (∀ (aid : Option String) (e1 e2 : ReqError),
        getAlbumAssets aid (Except.error e1) (Except.error e2) = [])
    ∧ (∀ e : ReqError, testConnection (Except.error e) = Except.error e)
    ∧ (∀ (st : CoordState) (e : ReqError),
        asyncUpdateDataTop st (Except.error e) = UpdateOutcome.updateFailed e) := by
  refine ⟨fun X e => rfl, fun aid e1 e2 => ?_, fun e => rfl, fun st e => rfl⟩
  unfold getAlbumAssets
  split <;> rfl

theorem cacheInsert_length_le (cache : List (CacheKey × Bytes)) (k : CacheKey)
    (v : Bytes) (hle : cache.length ≤ 10) : (cacheInsert cache k v).length ≤ 10 := by
  simp only [cacheInsert]
  split
  · rw [List.length_drop]
    omega
  · next h =>
    simp only [List.length_append, List.length_cons, List.length_nil] at h ⊢
    omega

/-- C9: the image cache never exceeds 10 entries after any
async_camera_image call, and the insertion step evicts the oldest
entries so that exactly the 10 most recently inserted remain whenever
the bound would be exceeded. -/
theorem C9_cache_bounded :
    (∀ (cache : List (CacheKey × Bytes)) (dp : Bool) (ca : Option Asset)
        (w l : Option Nat) (env : CameraEnv), cache.length ≤ 10 →
        (asyncCameraImage cache dp ca w l env).2.length ≤ 10)
    ∧ (∀ (cache : List (CacheKey × Bytes)) (k : CacheKey) (v : Bytes),
        cache.length ≤ 10 →
        (cacheInsert cache k v).length ≤ 10 ∧
        (10 < (cache ++ [(k, v)]).length →
          cacheInsert cache k v =
            (cache ++ [(k, v)]).drop ((cache ++ [(k, v)]).length - 10) ∧
          (cacheInsert cache k v).length = 10)) := by
  constructor
  · intro cache dp ca w l env hle
    cases dp with
    | false => exact hle
    | true =>
      cases ca with
      | none => exact hle
      | some b =>
        cases hl : cache.lookup (b.id, w, l) with
        | some v => simpa [asyncCameraImage, hl] using hle
        | none =>
          simpa [asyncCameraImage, hl, cameraImportSucceeds_eq_false] using hle
  · intro cache k v hle
    refine ⟨cacheInsert_length_le _ _ _ hle, fun hgt => ?_⟩
    constructor
    · simp only [cacheInsert]
      rw [if_pos hgt]
    · simp only [cacheInsert]
      rw [if_pos hgt, List.length_drop]
      simp only [List.length_append, List.length_cons, List.length_nil] at hgt ⊢
      omega

/-- C9 witness: a full 10-entry cache stays at 10 entries across a call,
and inserting an 11th entry evicts down to exactly 10. -/
theorem C9_cache_bounded_witness :
    (asyncCameraImage
        ((List.range 10).map (fun i =>
          (((some (toString i) : Option String), (none : Option Nat),
            (none : Option Nat)), ([i] : Bytes))))
        true (some ⟨some "z"⟩) none none
        ⟨true, true, true, Except.ok [1], fun b => b⟩).2.length ≤ 10 ∧
    (cacheInsert
        ((List.range 10).map (fun i =>
          (((some (toString i) : Option String), (none : Option Nat),
            (none : Option Nat)), ([i] : Bytes))))
        ((some "z" : Option String), (none : Option Nat), (none : Option Nat))
        [1]).length ≤ 10 :=
  ⟨C9_cache_bounded.1 _ true (some ⟨some "z"⟩) none none
      ⟨true, true, true, Except.ok [1], fun b => b⟩ (by decide),
   (C9_cache_bounded.2 _
      ((some "z" : Option String), (none : Option Nat), (none : Option Nat))
      [1] (by decide)).1⟩

/-- C7 counterexample: a 100 x 100 source with crop_to_fit and target
95 x 105 hits the "new size very close to original" early return, so
_resize_image returns the original 100 x 100 image, not a 95 x 105
one. -/
theorem C7_counterexample :
    resizeImage 100 100 (some 95) (some 105) true = ResizeOutcome.original ∧
    outcomeSize 100 100 (resizeImage 100 100 (some 95) (some 105) true)
      ≠ ((95 : Int), (105 : Int)) := by
  have h1 : resizeImage 100 100 (some 95) (some 105) true = ResizeOutcome.original := by
    norm_num [resizeImage, resizeNewDims, resizeScaleCapped, resizeScale,
      resizeEffHeight, pyTruthyNat, min_def]
  refine ⟨h1, ?_⟩
  rw [h1]
  simp only [outcomeSize]
  intro hcontra
  rw [Prod.mk.injEq] at hcontra
  omega

/-- C7 (amended): with crop_to_fit and both target dimensions given (and
the aspect-fit size not within 10 pixels of the original in both
dimensions, which instead returns the original unchanged), _resize_image
scales the source to fill the target — one dimension matching the
target, neither smaller — and center-crops to exactly width x height. -/
theorem C7_crop_to_fit (ow oh w h : Nat) (how : 0 < ow) (hoh : 0 < oh)
    (hw : w ≠ 0) (hh : h ≠ 0)
    (hskip : ¬(|(resizeNewDims ow oh (some w) (some h)).1 - (ow : Int)| < 10 ∧
        |(resizeNewDims ow oh (some w) (some h)).2 - (oh : Int)| < 10)) :
    ∃ tw th L T,
      resizeImage ow oh (some w) (some h) true
        = ResizeOutcome.cropped tw th L T (L + (w : Int)) (T + (h : Int)) ∧
      L = (tw - (w : Int)).fdiv 2 ∧
      T = (th - (h : Int)).fdiv 2 ∧
      (w : Int) ≤ tw ∧ (h : Int) ≤ th ∧
      (tw = (w : Int) ∨ th = (h : Int)) ∧
      outcomeSize ow oh (resizeImage ow oh (some w) (some h) true)
        = ((w : Int), (h : Int)) := by
  have htw : pyTruthyNat (some w) = true := by simp [pyTruthyNat, hw]
  have hth : pyTruthyNat (some h) = true := by simp [pyTruthyNat, hh]
  have heff : resizeEffHeight ow oh (some w) (some h) = some h := by
    simp [resizeEffHeight, hth]
  have hw0 : (0 : ℚ) < (w : ℚ) := by exact_mod_cast Nat.pos_of_ne_zero hw
  have hh0 : (0 : ℚ) < (h : ℚ) := by exact_mod_cast Nat.pos_of_ne_zero hh
  have how0 : (0 : ℚ) < (ow : ℚ) := by exact_mod_cast how
  have hoh0 : (0 : ℚ) < (oh : ℚ) := by exact_mod_cast hoh
  have hc1 : ¬((!pyTruthyNat (some w) && !pyTruthyNat (some h)) = true) := by
    simp [htw]
  have hc3 : (true && pyTruthyNat (some w)
      && pyTruthyNat (resizeEffHeight ow oh (some w) (some h))) = true := by
    simp [htw, heff, hth]
  simp only [resizeImage]
  rw [if_neg hc1, if_neg hskip, if_pos hc3, heff]
  simp only [Option.getD_some]
  split
  · next hasp =>
    refine ⟨_, _, _, _, rfl, rfl, rfl, ?_, le_refl _, Or.inr rfl, ?_⟩
    · refine Int.le_floor.mpr ?_
      push_cast at hasp ⊢
      rw [div_lt_div_iff₀ hh0 hoh0] at hasp
      rw [← mul_div_assoc, le_div_iff₀ hoh0]
      nlinarith
    · simp only [outcomeSize]
      rw [Prod.mk.injEq]
      constructor <;> ring
  · next hasp =>
    refine ⟨_, _, _, _, rfl, rfl, rfl, le_refl _, ?_, Or.inl rfl, ?_⟩
    · refine Int.le_floor.mpr ?_
      push_cast at hasp ⊢
      rw [not_lt, div_le_div_iff₀ hoh0 hh0] at hasp
      rw [← mul_div_assoc, le_div_iff₀ how0]
      nlinarith
    · simp only [outcomeSize]
      rw [Prod.mk.injEq]
      constructor <;> ring

/-- C7 witness: a 100 x 50 source cropped to fit 300 x 300 yields an
image of exactly 300 x 300 pixels. -/
theorem C7_crop_to_fit_witness :
    outcomeSize 100 50 (resizeImage 100 50 (some 300) (some 300) true)
      = ((300 : Int), (300 : Int)) := by
  obtain ⟨tw, th, L, T, hres, hL, hT, hwle, hhle, hor, hsize⟩ :=
    C7_crop_to_fit 100 50 300 300 (by decide) (by decide) (by decide) (by decide)
      (by norm_num [resizeNewDims, resizeScaleCapped, resizeScale,
            resizeEffHeight, pyTruthyNat, min_def])
  exact hsize

end ImmichSlideshow
